import Mathlib

set_option maxRecDepth 16384

/-!
Shallow embedding of the `diagnose-endpoint` CLI diagnostic engine.

The program issues a fixed sequence of network probes against a GraphQL
endpoint (HTTP OPTIONS, HTTP POST ping, HTTP POST introspection, or a single
WebSocket connect for `ws`/`wss` URLs), classifies each outcome, and
accumulates human-readable diagnoses together with the mutable flags
`hasIdentifiedProblem` and `hasIdentifiedCorsProblem`.

Network, JSON parsing and GraphQL schema construction are external
capabilities; they are modelled by an environment (`Env`) that fixes the
outcome of each probe and the behaviour of `JSON.parse` /
`buildClientSchema`+`validateSchema`.  Everything else is translated
directly from the source (the full variant of the script, the one with
WebSocket support and the EPROTO case in the catch switch; the second file
in the repository is an earlier revision of the same script without those
two features, noted where relevant).
-/

namespace DiagnoseEndpoint

/-- Contiguous-sublist test on character lists. -/
def containsSub (needle : List Char) : List Char → Bool
  | [] => needle.isEmpty
  | c :: rest => needle.isPrefixOf (c :: rest) || containsSub needle rest

/-- JS `String.prototype.includes`: substring containment. -/
def strIncludes (hay needle : String) : Bool :=
  containsSub needle.toList hay.toList

/-- Diagnosis categories, per the error taxonomy of the design
(AUTH for 401, NOT_FOUND for 404, CORS for header findings, TRANSPORT for
recognised connection failures, SCHEMA for introspection findings, UNKNOWN
for the catch-all).  Each `identifyProblem` call site in the source is
annotated with its category. -/
inductive Category where
  | AUTH
  | NOT_FOUND
  | CORS
  | TRANSPORT
  | SCHEMA
  | UNKNOWN
deriving DecidableEq, Repr

/-- A single finding printed by `identifyProblem`. -/
structure Diagnosis where
  message : String
  category : Category
deriving DecidableEq, Repr

/-- The accumulating report: the ordered findings plus the two mutable
flags `hasIdentifiedProblem` / `hasIdentifiedCorsProblem` of the script. -/
structure ReportState where
  diagnoses : List Diagnosis
  hasProblem : Bool
  hasCorsProblem : Bool
deriving DecidableEq, Repr

def initialReport : ReportState := ⟨[], false, false⟩

/-- `identifyProblem`: logs the finding and sets `hasIdentifiedProblem`. -/
def identifyProblem (d : Diagnosis) (st : ReportState) : ReportState :=
  ⟨st.diagnoses ++ [d], true, st.hasCorsProblem⟩

/-- `identifyCorsProblem`: calls `identifyProblem`, then also sets
`hasIdentifiedCorsProblem`. -/
def identifyCorsProblem (d : Diagnosis) (st : ReportState) : ReportState :=
  let st' := identifyProblem d st
  ⟨st'.diagnoses, st'.hasProblem, true⟩

/-- Response headers as delivered by the HTTP client (names lowercased). -/
def HeaderMap := List (String × String)

/-- Header lookup; `none` when the header is absent. -/
def getHeader (hs : HeaderMap) (name : String) : Option String :=
  (hs.find? (fun p => p.1 == name)).map (fun p => p.2)

/-- A completed HTTP exchange (the client is configured with
`throwHttpErrors: false`, so any status code arrives here). -/
structure HttpResponse where
  statusCode : Nat
  headers : HeaderMap
  body : String

/-- Outcome of one HTTP probe: a response, or a raised transport error
carrying `e.code` (absent on errors that have no code). -/
inductive HttpOutcome where
  | success (r : HttpResponse)
  | raise (code : Option String)

/-- Outcome of the WebSocket probe: the promise resolves on a clean
`close`, and rejects from the `connectFailed` handler or from a
post-connect `error` event. -/
inductive WsOutcome where
  | closed
  | connectFailed (code : Option String)
  | postConnectError (code : Option String)

/-- Embedded JSON values, the possible results of `JSON.parse`. -/
inductive Json where
  | jnull
  | jbool (b : Bool)
  | jnum (n : Int)
  | jstr (s : String)
  | jarr (xs : List Json)
  | jobj (fields : List (String × Json))

/-- JS `key in value`: property membership.  On an object it tests the
keys; on an array the tested keys (`data`, `__schema`) are never present;
on any primitive (number, string, boolean, null) the `in` operator throws
a TypeError, modelled as `Except.error`. -/
def hasProp (k : String) : Json → Except Unit Bool
  | .jobj fs => .ok (fs.any (fun p => p.1 == k))
  | .jarr _ => .ok false
  | _ => .error ()

/-- JS member access `value.k` on an object (only reached after `hasProp`
returned `ok true` on an object). -/
def getProp (k : String) : Json → Json
  | .jobj fs =>
    match fs.find? (fun p => p.1 == k) with
    | some p => p.2
    | none => .jnull
  | _ => .jnull

/-- JS truthiness of a possibly-absent header value: `undefined` and the
empty string are falsy. -/
def truthy : Option String → Bool
  | none => false
  | some v => v != ""

/- Message strings, verbatim from the script. -/

def optionsMsg401 : String :=
  "OPTIONS response returned 401. Are authorization headers or cookies required?"

def optionsMsg404 : String :=
  "OPTIONS response returned 404. Is the url correct? Are authorization headers or cookies required?"

def postMsg401 : String :=
  "POST response returned 401. Are authorization headers or cookies required?"

def postMsg404 : String :=
  "POST response returned 404. Is the url correct? Are authorization headers or cookies required?"

def preflightMsg : String :=
  "OPTIONS response is missing header \x27access-control-allow-methods: POST\x27"

def corsOriginEchoLine : String :=
  "    access-control-allow-origin: https://studio.apollographql.com"

def corsCredentialsLine : String :=
  "    access-control-allow-credentials: true"

def corsWildcardLine : String :=
  "    access-control-allow-origin: *"

def corsActualMsg : String :=
  String.intercalate "\n"
    [ "POST response missing \x27access-control-allow-origin\x27 header."
    , "If using cookie-based authentication, the following headers are required from your endpoint: "
    , corsOriginEchoLine
    , corsCredentialsLine
    , "Otherwise, a wildcard value would work:"
    , corsWildcardLine ]

def transportGuidance : String :=
  "Is the address correct?\nIs the server running?"

def enotfoundMsg : String :=
  "Could not resolve (ENOTFOUND)\n" ++ transportGuidance

def econnrefusedMsg : String :=
  "Connection refused (ECONNREFUSED)\n" ++ transportGuidance

def eprotoMsg : String :=
  "Protocol wrong type for socket (EPROTO)\n" ++ transportGuidance

/-- Stand-in for the raw error object interpolated into the catch-all
message (the script prints `e` and `e.message`; the failure code is the
machine-readable part our model carries). -/
def codeRepr : Option String → String
  | none => "undefined"
  | some s => s

def unknownMsg (c : Option String) : String :=
  "Failed to diagnose what went wrong. Here\x27s the error: " ++ codeRepr c

def disabledMsg (body : String) : String :=
  "Introspection query received a response of " ++ body ++
    ". Does introspection need to be turned on?"

def parseErrMsg (body : String) : String :=
  "Introspection query could not parse \"" ++ body ++
    "\" As valid json. Here is the error: "

def invalidSchemaMsg (errs : List String) : String :=
  "Invalid schema from introspection: " ++ String.intercalate "," errs

/-- 401/404 status classification shared by the OPTIONS and the ping POST
probes (`probeName` is the word that prefixes the message). -/
def checkStatus (msg401 msg404 : String) (status : Nat) : Option Diagnosis :=
  if status == 401 then some ⟨msg401, .AUTH⟩
  else if status == 404 then some ⟨msg404, .NOT_FOUND⟩
  else none

/-- The preflight condition of the script:
`headers["access-control-allow-methods"] && ...includes("POST")`. -/
def corsMethodsOk (h : Option String) : Bool :=
  match h with
  | none => false
  | some v => (v != "") && strIncludes v "POST"

/-- CORS Analyzer, preflight check (inlined in the script after Probe A). -/
def checkPreflight (r : HttpResponse) : Option Diagnosis :=
  if corsMethodsOk (getHeader r.headers "access-control-allow-methods") then none
  else some ⟨preflightMsg, .CORS⟩

/-- The actual-response condition of the script:
not (`!h || (h !== "*" && h !== origin)`). -/
def corsOriginOk (h : Option String) (origin : String) : Bool :=
  match h with
  | none => false
  | some v => (v != "") && ((v == "*") || (v == origin))

/-- CORS Analyzer, actual-response check (inlined after Probe B). -/
def checkActualResponse (r : HttpResponse) (origin : String) : Option Diagnosis :=
  if corsOriginOk (getHeader r.headers "access-control-allow-origin") origin then none
  else some ⟨corsActualMsg, .CORS⟩

/-- Applies an optional finding with the given reporting function. -/
def applyOpt (o : Option Diagnosis)
    (f : Diagnosis → ReportState → ReportState) (st : ReportState) : ReportState :=
  match o with
  | none => st
  | some d => f d st

/-- Checks run on the Probe A (OPTIONS) response: status classification,
then the preflight CORS check. -/
def optionsPhase (r : HttpResponse) (st : ReportState) : ReportState :=
  applyOpt (checkPreflight r) identifyCorsProblem
    (applyOpt (checkStatus optionsMsg401 optionsMsg404 r.statusCode) identifyProblem st)

/-- Checks run on the Probe B (ping POST) response: status classification,
then the actual-response CORS check. -/
def pingPhase (r : HttpResponse) (origin : String) (st : ReportState) : ReportState :=
  applyOpt (checkActualResponse r origin) identifyCorsProblem
    (applyOpt (checkStatus postMsg401 postMsg404 r.statusCode) identifyProblem st)

/-- The catch block: switch on `e.code`.  A `switch` on `undefined` or on
the empty string falls to `default`. -/
def classifyCatch (c : Option String) (st : ReportState) : ReportState :=
  match c with
  | some "ENOTFOUND" => identifyProblem ⟨enotfoundMsg, .TRANSPORT⟩ st
  | some "ECONNREFUSED" => identifyProblem ⟨econnrefusedMsg, .TRANSPORT⟩ st
  | some "EPROTO" => identifyProblem ⟨eprotoMsg, .TRANSPORT⟩ st
  | _ => identifyProblem ⟨unknownMsg c, .UNKNOWN⟩ st

/-- The `connectFailed` handler patches a missing (falsy) `error.code` to
`"ENOTFOUND"` before rejecting. -/
def patchWsCode (c : Option String) : Option String :=
  if truthy c then c else some "ENOTFOUND"

/-- `diagnoseWebSocket` as seen by the awaiting caller: clean close
resolves; `connectFailed` rejects with the patched code; a post-connect
error rejects with the error as-is. -/
def wsResult (o : WsOutcome) : Except (Option String) Unit :=
  match o with
  | .closed => .ok ()
  | .connectFailed c => .error (patchWsCode c)
  | .postConnectError c => .error c

/-- The characters of a string, lowercased. -/
def lowerChars (s : String) : List Char := s.toList.map Char.toLower

/-- `options.endpoint.match(/^wss?:/i)`: the URL starts with `ws:` or
`wss:`, case-insensitively. -/
def isWebSocketUrl (u : String) : Bool :=
  ("ws:".toList.isPrefixOf (lowerChars u)) || ("wss:".toList.isPrefixOf (lowerChars u))

/-- The introspection-response block: `JSON.parse` the body, test the
`data` / `data.__schema` shape with the `in` operator, and otherwise build
and validate a client schema.  The surrounding try/catch turns a parse
failure, a TypeError from `in` on a primitive, or a `buildClientSchema`
throw into the could-not-parse finding.  `parse` models `JSON.parse`
(`none` = throw); `buildAndValidate` models
`validateSchema (buildClientSchema data)` (`Except.error` = throw,
`Except.ok errs` = the validation error list). -/
def introspectionCheck (parse : String → Option Json)
    (buildAndValidate : Json → Except String (List String))
    (body : String) (st : ReportState) : ReportState :=
  match parse body with
  | none => identifyProblem ⟨parseErrMsg body, .SCHEMA⟩ st
  | some doc =>
    match hasProp "data" doc with
    | .error _ => identifyProblem ⟨parseErrMsg body, .SCHEMA⟩ st
    | .ok false => identifyProblem ⟨disabledMsg body, .SCHEMA⟩ st
    | .ok true =>
      match hasProp "__schema" (getProp "data" doc) with
      | .error _ => identifyProblem ⟨parseErrMsg body, .SCHEMA⟩ st
      | .ok false => identifyProblem ⟨disabledMsg body, .SCHEMA⟩ st
      | .ok true =>
        match buildAndValidate (getProp "data" doc) with
        | .error _ => identifyProblem ⟨parseErrMsg body, .SCHEMA⟩ st
        | .ok errs =>
          if errs.isEmpty then st
          else identifyProblem ⟨invalidSchemaMsg errs, .SCHEMA⟩ st

/-- The probes a run can issue, in the order they are issued. -/
inductive ProbeEvent where
  | optionsProbe
  | pingProbe
  | wsProbe
  | introspectionProbe
deriving DecidableEq, Repr

/-- The external world fixed for one run: the outcome of each network
probe and the behaviour of the JSON / GraphQL capabilities. -/
structure Env where
  optionsOutcome : HttpOutcome
  pingOutcome : HttpOutcome
  introspectionOutcome : HttpOutcome
  wsOutcome : WsOutcome
  jsonParse : String → Option Json
  buildAndValidate : Json → Except String (List String)

/-- CLI inputs: `--endpoint` and `--origin` (the latter defaults to the
studio origin). -/
structure Config where
  endpoint : String
  origin : String

def defaultOrigin : String := "https://studio.apollographql.com"

/-- The try block of the HTTP path: Probe A (OPTIONS) and Probe B (ping
POST).  Returns the report, the probes issued, and the code of a raised
transport error when one escaped to the catch (state written before the
throw persists). -/
def httpTry (env : Env) (origin : String) :
    ReportState × List ProbeEvent × Option (Option String) :=
  match env.optionsOutcome with
  | .raise c => (initialReport, [.optionsProbe], some c)
  | .success rA =>
    let st1 := optionsPhase rA initialReport
    match env.pingOutcome with
    | .raise c => (st1, [.optionsProbe, .pingProbe], some c)
    | .success rB =>
      (pingPhase rB origin st1, [.optionsProbe, .pingProbe], none)

/-- The HTTP path through try/catch: the state after Probes A and B with
any raised error classified by the catch switch. -/
def httpPhase (env : Env) (origin : String) : ReportState × List ProbeEvent :=
  match httpTry env origin with
  | (st, tr, none) => (st, tr)
  | (st, tr, some c) => (classifyCatch c st, tr)

/-- How a run ends: normally, or with the rejection of the introspection
`got.post` — which the script awaits outside every try/catch, so that
rejection escapes the async function as an unhandled rejection.  The
partially built report and trace at the moment of escape are kept for
inspection. -/
inductive RunOutcome where
  | completed (report : ReportState) (trace : List ProbeEvent)
  | aborted (code : Option String) (report : ReportState) (trace : List ProbeEvent)
deriving DecidableEq, Repr

def RunOutcome.report : RunOutcome → ReportState
  | .completed st _ => st
  | .aborted _ st _ => st

def RunOutcome.trace : RunOutcome → List ProbeEvent
  | .completed _ tr => tr
  | .aborted _ _ tr => tr

/-- The whole diagnostic run of the script body: WebSocket branch or HTTP
try/catch, then — only when no problem was identified and the endpoint is
not a WebSocket — Probe C (introspection POST) and the schema checks. -/
def runDiagnose (cfg : Config) (env : Env) : RunOutcome :=
  if isWebSocketUrl cfg.endpoint then
    match wsResult env.wsOutcome with
    | .ok _ => .completed initialReport [.wsProbe]
    | .error c => .completed (classifyCatch c initialReport) [.wsProbe]
  else
    match httpPhase env cfg.origin with
    | (st, tr) =>
      if st.hasProblem then .completed st tr
      else
        match env.introspectionOutcome with
        | .raise c => .aborted c st (tr ++ [.introspectionProbe])
        | .success r =>
          .completed (introspectionCheck env.jsonParse env.buildAndValidate r.body st)
            (tr ++ [.introspectionProbe])

/-- The successive report snapshots a run passes through (one entry per
point in the script where the report could change), used to state the
append-only invariant. -/
def runSnapshots (cfg : Config) (env : Env) : List ReportState :=
  if isWebSocketUrl cfg.endpoint then
    match wsResult env.wsOutcome with
    | .ok _ => [initialReport]
    | .error c => [initialReport, classifyCatch c initialReport]
  else
    match env.optionsOutcome with
    | .raise c => [initialReport, classifyCatch c initialReport]
    | .success rA =>
      let s1 := optionsPhase rA initialReport
      match env.pingOutcome with
      | .raise c => [initialReport, s1, classifyCatch c s1]
      | .success rB =>
        let s2 := pingPhase rB cfg.origin s1
        if s2.hasProblem then [initialReport, s1, s2]
        else
          match env.introspectionOutcome with
          | .raise _ => [initialReport, s1, s2]
          | .success r =>
            [initialReport, s1, s2,
              introspectionCheck env.jsonParse env.buildAndValidate r.body s2]

/-- One report state extends another: the earlier diagnosis list is an
initial segment of the later one, and neither flag is ever reset. -/
def Extends (a b : ReportState) : Prop :=
  (∃ t, b.diagnoses = a.diagnoses ++ t) ∧
    (a.hasProblem = true → b.hasProblem = true) ∧
    (a.hasCorsProblem = true → b.hasCorsProblem = true)

/-- `hasIdentifiedProblem` agrees with "some diagnosis was recorded". -/
def ProblemInv (st : ReportState) : Prop :=
  st.hasProblem = !st.diagnoses.isEmpty

/-- `hasIdentifiedCorsProblem` agrees with "some CORS diagnosis was
recorded". -/
def CorsInv (st : ReportState) : Prop :=
  st.hasCorsProblem = st.diagnoses.any (fun d => d.category == Category.CORS)

/-- Splits a character list at commas. -/
def splitOnComma : List Char → List (List Char)
  | [] => [[]]
  | c :: rest =>
    if c == ',' then [] :: splitOnComma rest
    else
      match splitOnComma rest with
      | [] => [[c]]
      | t :: ts => (c :: t) :: ts

/-- Strips leading and trailing whitespace from a character list. -/
def trimToken (l : List Char) : List Char :=
  ((l.dropWhile Char.isWhitespace).reverse.dropWhile Char.isWhitespace).reverse

/-- Modelled from the spec words of the claim under test: the header value
contains `POST` as a comma-separated token (the code instead uses a plain
substring test). -/
def containsPOSTToken (v : String) : Bool :=
  (splitOnComma v.toList).any (fun t => trimToken t == "POST".toList)

/- Concrete inputs used by counterexamples and witnesses. -/

def okBuild : Json → Except String (List String) := fun _ => .ok []

def noParse : String → Option Json := fun _ => none

/-- A run whose Probes A and B come back clean and whose introspection
POST raises a connection-refused transport error. -/
def envC1 : Env :=
  { optionsOutcome := .success ⟨200, [("access-control-allow-methods", "POST")], ""⟩
  , pingOutcome := .success ⟨200, [("access-control-allow-origin", "*")], ""⟩
  , introspectionOutcome := .raise (some "ECONNREFUSED")
  , wsOutcome := .closed
  , jsonParse := noParse
  , buildAndValidate := okBuild }

def cfgC1 : Config := ⟨"http://localhost:4000/graphql", defaultOrigin⟩

/-- OPTIONS response whose allow-methods value contains `POST` as a
substring but not as a token. -/
def respPostsOnly : HttpResponse :=
  ⟨200, [("access-control-allow-methods", "POSTS")], ""⟩

/-- A response with no CORS headers at all. -/
def respNoHeaders : HttpResponse := ⟨200, [], ""⟩

/-- POST response carrying `access-control-allow-origin` with an empty
value. -/
def respEmptyAllowOrigin : HttpResponse :=
  ⟨200, [("access-control-allow-origin", "")], ""⟩

/-- A JSON.parse behaviour that parses the body `5` to the number 5. -/
def parseNumFive : String → Option Json :=
  fun s => if s == "5" then some (.jnum 5) else none

/-- HTTP run whose OPTIONS probe returns 404. -/
def envC2w : Env :=
  { optionsOutcome := .success ⟨404, [], ""⟩
  , pingOutcome := .success ⟨200, [], ""⟩
  , introspectionOutcome := .success ⟨200, [], ""⟩
  , wsOutcome := .closed
  , jsonParse := noParse
  , buildAndValidate := okBuild }

def cfgHttp : Config := ⟨"https://api.example.com/graphql", defaultOrigin⟩

def cfgWs : Config := ⟨"wss://api.example.com/graphql", defaultOrigin⟩

/-- WebSocket run refused at connect time. -/
def envC6w : Env :=
  { optionsOutcome := .raise none
  , pingOutcome := .raise none
  , introspectionOutcome := .raise none
  , wsOutcome := .connectFailed (some "ECONNREFUSED")
  , jsonParse := noParse
  , buildAndValidate := okBuild }

/-- WebSocket run whose connect failure carries no error code. -/
def envC9w : Env :=
  { envC6w with wsOutcome := .connectFailed none }

/-- HTTP run whose OPTIONS probe raises a name-resolution failure. -/
def envC10w : Env :=
  { optionsOutcome := .raise (some "ENOTFOUND")
  , pingOutcome := .success ⟨200, [], ""⟩
  , introspectionOutcome := .success ⟨200, [], ""⟩
  , wsOutcome := .closed
  , jsonParse := noParse
  , buildAndValidate := okBuild }

/-- An introspection body shaped like an errors-only GraphQL response. -/
def errorsOnlyDoc : Json := .jobj [("errors", .jarr [])]

def errorsOnlyBody : String := "\x7b\"errors\":[]\x7d"

def parseErrorsOnly : String → Option Json :=
  fun s => if s == errorsOnlyBody then some errorsOnlyDoc else none

/-! Helper lemmas: the report only ever grows, and the two flags track the
recorded diagnoses. -/

theorem extendsRefl (a : ReportState) : Extends a a :=
  ⟨⟨[], by simp⟩, fun h => h, fun h => h⟩

theorem extendsTrans {a b c : ReportState} (h1 : Extends a b) (h2 : Extends b c) :
    Extends a c := by
  obtain ⟨⟨t1, ht1⟩, hp1, hc1⟩ := h1
  obtain ⟨⟨t2, ht2⟩, hp2, hc2⟩ := h2
  exact ⟨⟨t1 ++ t2, by rw [ht2, ht1, List.append_assoc]⟩,
    fun h => hp2 (hp1 h), fun h => hc2 (hc1 h)⟩

theorem identifyProblem_extends (d : Diagnosis) (st : ReportState) :
    Extends st (identifyProblem d st) :=
  ⟨⟨[d], rfl⟩, fun _ => rfl, fun h => h⟩

theorem identifyCorsProblem_extends (d : Diagnosis) (st : ReportState) :
    Extends st (identifyCorsProblem d st) :=
  ⟨⟨[d], rfl⟩, fun _ => rfl, fun _ => rfl⟩

theorem applyOpt_extends (o : Option Diagnosis)
    (f : Diagnosis → ReportState → ReportState) (st : ReportState)
    (hf : ∀ d s, Extends s (f d s)) : Extends st (applyOpt o f st) := by
  cases o with
  | none => exact extendsRefl st
  | some d => exact hf d st

theorem optionsPhase_extends (r : HttpResponse) (st : ReportState) :
    Extends st (optionsPhase r st) :=
  extendsTrans
    (applyOpt_extends _ _ _ identifyProblem_extends)
    (applyOpt_extends _ _ _ identifyCorsProblem_extends)

theorem pingPhase_extends (r : HttpResponse) (origin : String) (st : ReportState) :
    Extends st (pingPhase r origin st) :=
  extendsTrans
    (applyOpt_extends _ _ _ identifyProblem_extends)
    (applyOpt_extends _ _ _ identifyCorsProblem_extends)

theorem classifyCatch_extends (c : Option String) (st : ReportState) :
    Extends st (classifyCatch c st) := by
  unfold classifyCatch
  split <;> exact identifyProblem_extends _ _

theorem introspectionCheck_extends (p : String → Option Json)
    (bv : Json → Except String (List String)) (b : String) (st : ReportState) :
    Extends st (introspectionCheck p bv b st) := by
  unfold introspectionCheck
  repeat' split
  all_goals first
    | exact extendsRefl st
    | exact identifyProblem_extends _ _

theorem extends_mem {a b : ReportState} (h : Extends a b) {d : Diagnosis}
    (hd : d ∈ a.diagnoses) : d ∈ b.diagnoses := by
  obtain ⟨⟨t, ht⟩, _, _⟩ := h
  rw [ht]
  exact List.mem_append_left t hd

theorem problemInv_initial : ProblemInv initialReport := rfl

theorem corsInv_initial : CorsInv initialReport := rfl

theorem identifyProblem_problemInv (d : Diagnosis) (st : ReportState) :
    ProblemInv (identifyProblem d st) := by
  simp [ProblemInv, identifyProblem]

theorem identifyCorsProblem_problemInv (d : Diagnosis) (st : ReportState) :
    ProblemInv (identifyCorsProblem d st) := by
  simp [ProblemInv, identifyCorsProblem, identifyProblem]

theorem applyOpt_problemInv (o : Option Diagnosis)
    (f : Diagnosis → ReportState → ReportState) (st : ReportState)
    (hf : ∀ d s, ProblemInv (f d s)) (h : ProblemInv st) :
    ProblemInv (applyOpt o f st) := by
  cases o with
  | none => exact h
  | some d => exact hf d st

theorem optionsPhase_problemInv (r : HttpResponse) (st : ReportState)
    (h : ProblemInv st) : ProblemInv (optionsPhase r st) :=
  applyOpt_problemInv _ _ _ identifyCorsProblem_problemInv
    (applyOpt_problemInv _ _ _ identifyProblem_problemInv h)

theorem pingPhase_problemInv (r : HttpResponse) (origin : String) (st : ReportState)
    (h : ProblemInv st) : ProblemInv (pingPhase r origin st) :=
  applyOpt_problemInv _ _ _ identifyCorsProblem_problemInv
    (applyOpt_problemInv _ _ _ identifyProblem_problemInv h)

theorem classifyCatch_problemInv (c : Option String) (st : ReportState) :
    ProblemInv (classifyCatch c st) := by
  unfold classifyCatch
  split <;> exact identifyProblem_problemInv _ _

theorem introspectionCheck_problemInv (p : String → Option Json)
    (bv : Json → Except String (List String)) (b : String) (st : ReportState)
    (h : ProblemInv st) : ProblemInv (introspectionCheck p bv b st) := by
  unfold introspectionCheck
  repeat' split
  all_goals first
    | exact h
    | exact identifyProblem_problemInv _ _

theorem identifyProblem_corsInv (d : Diagnosis) (st : ReportState)
    (hd : (d.category == Category.CORS) = false) (h : CorsInv st) :
    CorsInv (identifyProblem d st) := by
  simp only [CorsInv, identifyProblem] at *
  rw [List.any_append]
  simp [hd, h]

theorem identifyCorsProblem_corsInv (d : Diagnosis) (st : ReportState)
    (hd : (d.category == Category.CORS) = true) (h : CorsInv st) :
    CorsInv (identifyCorsProblem d st) := by
  simp only [CorsInv, identifyCorsProblem, identifyProblem] at *
  rw [List.any_append]
  simp [hd]

theorem checkStatus_not_cors (m1 m2 : String) (s : Nat) (d : Diagnosis)
    (h : checkStatus m1 m2 s = some d) : (d.category == Category.CORS) = false := by
  unfold checkStatus at h
  split at h
  · cases h; rfl
  · split at h
    · cases h; rfl
    · cases h

theorem checkPreflight_some (r : HttpResponse) (d : Diagnosis)
    (h : checkPreflight r = some d) : d = ⟨preflightMsg, .CORS⟩ := by
  unfold checkPreflight at h
  split at h
  · cases h
  · exact (Option.some.inj h).symm

theorem checkActualResponse_some (r : HttpResponse) (origin : String) (d : Diagnosis)
    (h : checkActualResponse r origin = some d) : d = ⟨corsActualMsg, .CORS⟩ := by
  unfold checkActualResponse at h
  split at h
  · cases h
  · exact (Option.some.inj h).symm

theorem classifyCatch_shape (c : Option String) (st : ReportState) :
    ∃ d, classifyCatch c st = identifyProblem d st ∧
      (d.category = Category.TRANSPORT ∨ d.category = Category.UNKNOWN) := by
  unfold classifyCatch
  split
  · exact ⟨⟨enotfoundMsg, .TRANSPORT⟩, rfl, Or.inl rfl⟩
  · exact ⟨⟨econnrefusedMsg, .TRANSPORT⟩, rfl, Or.inl rfl⟩
  · exact ⟨⟨eprotoMsg, .TRANSPORT⟩, rfl, Or.inl rfl⟩
  · exact ⟨⟨unknownMsg c, .UNKNOWN⟩, rfl, Or.inr rfl⟩

theorem optionsPhase_corsInv (r : HttpResponse) (st : ReportState)
    (h : CorsInv st) : CorsInv (optionsPhase r st) := by
  unfold optionsPhase
  have h1 : CorsInv (applyOpt (checkStatus optionsMsg401 optionsMsg404 r.statusCode)
      identifyProblem st) := by
    cases hs : checkStatus optionsMsg401 optionsMsg404 r.statusCode with
    | none => exact h
    | some d => exact identifyProblem_corsInv d st (checkStatus_not_cors _ _ _ _ hs) h
  cases hp : checkPreflight r with
  | none => exact h1
  | some d =>
    exact identifyCorsProblem_corsInv d _ (by rw [checkPreflight_some r d hp]; rfl) h1

theorem pingPhase_corsInv (r : HttpResponse) (origin : String) (st : ReportState)
    (h : CorsInv st) : CorsInv (pingPhase r origin st) := by
  unfold pingPhase
  have h1 : CorsInv (applyOpt (checkStatus postMsg401 postMsg404 r.statusCode)
      identifyProblem st) := by
    cases hs : checkStatus postMsg401 postMsg404 r.statusCode with
    | none => exact h
    | some d => exact identifyProblem_corsInv d st (checkStatus_not_cors _ _ _ _ hs) h
  cases hp : checkActualResponse r origin with
  | none => exact h1
  | some d =>
    exact identifyCorsProblem_corsInv d _
      (by rw [checkActualResponse_some r origin d hp]; rfl) h1

theorem classifyCatch_corsInv (c : Option String) (st : ReportState)
    (h : CorsInv st) : CorsInv (classifyCatch c st) := by
  obtain ⟨d, heq, hcat⟩ := classifyCatch_shape c st
  rw [heq]
  refine identifyProblem_corsInv d st ?_ h
  rcases hcat with h' | h' <;> simp [h']

theorem introspectionCheck_corsInv (p : String → Option Json)
    (bv : Json → Except String (List String)) (b : String) (st : ReportState)
    (h : CorsInv st) : CorsInv (introspectionCheck p bv b st) := by
  unfold introspectionCheck
  repeat' split
  all_goals first
    | exact h
    | exact identifyProblem_corsInv _ _ rfl h

/-! Equations exposing the run branch by branch. -/

theorem httpPhase_eq_raiseA (env : Env) (o : String) (c : Option String)
    (hA : env.optionsOutcome = .raise c) :
    httpPhase env o = (classifyCatch c initialReport, [.optionsProbe]) := by
  unfold httpPhase httpTry
  rw [hA]

theorem httpPhase_eq_raiseB (env : Env) (o : String) (rA : HttpResponse)
    (c : Option String) (hA : env.optionsOutcome = .success rA)
    (hB : env.pingOutcome = .raise c) :
    httpPhase env o =
      (classifyCatch c (optionsPhase rA initialReport), [.optionsProbe, .pingProbe]) := by
  unfold httpPhase httpTry
  rw [hA, hB]

theorem httpPhase_eq_ok (env : Env) (o : String) (rA rB : HttpResponse)
    (hA : env.optionsOutcome = .success rA) (hB : env.pingOutcome = .success rB) :
    httpPhase env o =
      (pingPhase rB o (optionsPhase rA initialReport), [.optionsProbe, .pingProbe]) := by
  unfold httpPhase httpTry
  rw [hA, hB]

theorem runDiagnose_ws_ok (cfg : Config) (env : Env)
    (h : isWebSocketUrl cfg.endpoint = true) (hw : env.wsOutcome = .closed) :
    runDiagnose cfg env = .completed initialReport [.wsProbe] := by
  unfold runDiagnose wsResult
  rw [hw, h]
  rfl

theorem runDiagnose_ws_err (cfg : Config) (env : Env) (c : Option String)
    (h : isWebSocketUrl cfg.endpoint = true)
    (hw : wsResult env.wsOutcome = .error c) :
    runDiagnose cfg env = .completed (classifyCatch c initialReport) [.wsProbe] := by
  unfold runDiagnose
  rw [hw, h]
  rfl

theorem runDiagnose_http_problem (cfg : Config) (env : Env) (st : ReportState)
    (tr : List ProbeEvent) (h : isWebSocketUrl cfg.endpoint = false)
    (hp : httpPhase env cfg.origin = (st, tr)) (hSt : st.hasProblem = true) :
    runDiagnose cfg env = .completed st tr := by
  unfold runDiagnose
  rw [h, hp]
  simp [hSt]

theorem runDiagnose_http_quiet_raise (cfg : Config) (env : Env) (st : ReportState)
    (tr : List ProbeEvent) (c : Option String)
    (h : isWebSocketUrl cfg.endpoint = false)
    (hp : httpPhase env cfg.origin = (st, tr)) (hSt : st.hasProblem = false)
    (hI : env.introspectionOutcome = .raise c) :
    runDiagnose cfg env = .aborted c st (tr ++ [.introspectionProbe]) := by
  unfold runDiagnose
  rw [h, hp, hI]
  simp [hSt]

theorem runDiagnose_http_quiet_success (cfg : Config) (env : Env) (st : ReportState)
    (tr : List ProbeEvent) (r : HttpResponse)
    (h : isWebSocketUrl cfg.endpoint = false)
    (hp : httpPhase env cfg.origin = (st, tr)) (hSt : st.hasProblem = false)
    (hI : env.introspectionOutcome = .success r) :
    runDiagnose cfg env =
      .completed (introspectionCheck env.jsonParse env.buildAndValidate r.body st)
        (tr ++ [.introspectionProbe]) := by
  unfold runDiagnose
  rw [h, hp, hI]
  simp [hSt]

theorem httpPhase_problemInv (env : Env) (o : String) :
    ProblemInv (httpPhase env o).1 := by
  rcases hA : env.optionsOutcome with rA | c
  · rcases hB : env.pingOutcome with rB | c
    · rw [httpPhase_eq_ok env o rA rB hA hB]
      exact pingPhase_problemInv _ _ _ (optionsPhase_problemInv _ _ problemInv_initial)
    · rw [httpPhase_eq_raiseB env o rA c hA hB]
      exact classifyCatch_problemInv _ _
  · rw [httpPhase_eq_raiseA env o c hA]
    exact classifyCatch_problemInv _ _

theorem httpPhase_corsInv (env : Env) (o : String) :
    CorsInv (httpPhase env o).1 := by
  rcases hA : env.optionsOutcome with rA | c
  · rcases hB : env.pingOutcome with rB | c
    · rw [httpPhase_eq_ok env o rA rB hA hB]
      exact pingPhase_corsInv _ _ _ (optionsPhase_corsInv _ _ corsInv_initial)
    · rw [httpPhase_eq_raiseB env o rA c hA hB]
      exact classifyCatch_corsInv _ _ (optionsPhase_corsInv _ _ corsInv_initial)
  · rw [httpPhase_eq_raiseA env o c hA]
    exact classifyCatch_corsInv _ _ corsInv_initial

theorem httpPhase_trace (env : Env) (o : String) :
    (httpPhase env o).2 = [.optionsProbe] ∨
      (httpPhase env o).2 = [.optionsProbe, .pingProbe] := by
  rcases hA : env.optionsOutcome with rA | c
  · rcases hB : env.pingOutcome with rB | c
    · rw [httpPhase_eq_ok env o rA rB hA hB]; exact Or.inr rfl
    · rw [httpPhase_eq_raiseB env o rA c hA hB]; exact Or.inr rfl
  · rw [httpPhase_eq_raiseA env o c hA]; exact Or.inl rfl

theorem run_problemInv (cfg : Config) (env : Env) :
    ProblemInv (runDiagnose cfg env).report := by
  by_cases h : isWebSocketUrl cfg.endpoint = true
  · rcases hw : env.wsOutcome with _ | c | c
    · rw [runDiagnose_ws_ok cfg env h hw]
      exact problemInv_initial
    · rw [runDiagnose_ws_err cfg env (patchWsCode c) h (by rw [hw]; rfl)]
      exact classifyCatch_problemInv _ _
    · rw [runDiagnose_ws_err cfg env c h (by rw [hw]; rfl)]
      exact classifyCatch_problemInv _ _
  · rw [Bool.not_eq_true] at h
    rcases hp : httpPhase env cfg.origin with ⟨st, tr⟩
    have hInv : ProblemInv st := by
      have := httpPhase_problemInv env cfg.origin
      rw [hp] at this
      exact this
    rcases hSt : st.hasProblem with _ | _
    · rcases hI : env.introspectionOutcome with r | c
      · rw [runDiagnose_http_quiet_success cfg env st tr r h hp hSt hI]
        exact introspectionCheck_problemInv _ _ _ _ hInv
      · rw [runDiagnose_http_quiet_raise cfg env st tr c h hp hSt hI]
        exact hInv
    · rw [runDiagnose_http_problem cfg env st tr h hp hSt]
      exact hInv

theorem run_corsInv (cfg : Config) (env : Env) :
    CorsInv (runDiagnose cfg env).report := by
  by_cases h : isWebSocketUrl cfg.endpoint = true
  · rcases hw : env.wsOutcome with _ | c | c
    · rw [runDiagnose_ws_ok cfg env h hw]
      exact corsInv_initial
    · rw [runDiagnose_ws_err cfg env (patchWsCode c) h (by rw [hw]; rfl)]
      exact classifyCatch_corsInv _ _ corsInv_initial
    · rw [runDiagnose_ws_err cfg env c h (by rw [hw]; rfl)]
      exact classifyCatch_corsInv _ _ corsInv_initial
  · rw [Bool.not_eq_true] at h
    rcases hp : httpPhase env cfg.origin with ⟨st, tr⟩
    have hInv : CorsInv st := by
      have := httpPhase_corsInv env cfg.origin
      rw [hp] at this
      exact this
    rcases hSt : st.hasProblem with _ | _
    · rcases hI : env.introspectionOutcome with r | c
      · rw [runDiagnose_http_quiet_success cfg env st tr r h hp hSt hI]
        exact introspectionCheck_corsInv _ _ _ _ hInv
      · rw [runDiagnose_http_quiet_raise cfg env st tr c h hp hSt hI]
        exact hInv
    · rw [runDiagnose_http_problem cfg env st tr h hp hSt]
      exact hInv

/-! Two more branch facts used by the claim theorems. -/

theorem classifyCatch_hasProblem (c : Option String) (st : ReportState) :
    (classifyCatch c st).hasProblem = true := by
  obtain ⟨d, heq, _⟩ := classifyCatch_shape c st
  rw [heq]
  rfl

theorem optionsPhase_404 (rA : HttpResponse) (st : ReportState)
    (h404 : rA.statusCode = 404) :
    (optionsPhase rA st).hasProblem = true ∧
      ∃ d ∈ (optionsPhase rA st).diagnoses, d.category = Category.NOT_FOUND := by
  have hcs : checkStatus optionsMsg401 optionsMsg404 rA.statusCode
      = some ⟨optionsMsg404, Category.NOT_FOUND⟩ := by
    rw [h404]
    rfl
  have heq : optionsPhase rA st =
      applyOpt (checkPreflight rA) identifyCorsProblem
        (identifyProblem ⟨optionsMsg404, Category.NOT_FOUND⟩ st) := by
    unfold optionsPhase
    rw [hcs]
    rfl
  have hext : Extends (identifyProblem ⟨optionsMsg404, Category.NOT_FOUND⟩ st)
      (applyOpt (checkPreflight rA) identifyCorsProblem
        (identifyProblem ⟨optionsMsg404, Category.NOT_FOUND⟩ st)) :=
    applyOpt_extends _ _ _ identifyCorsProblem_extends
  have hmem : (⟨optionsMsg404, Category.NOT_FOUND⟩ : Diagnosis) ∈
      (identifyProblem ⟨optionsMsg404, Category.NOT_FOUND⟩ st).diagnoses := by
    simp [identifyProblem]
  constructor
  · rw [heq]
    exact hext.2.1 rfl
  · exact ⟨⟨optionsMsg404, Category.NOT_FOUND⟩, by rw [heq]; exact extends_mem hext hmem, rfl⟩

/-! The claims. -/

/-- C1: the claim says every error raised during probe execution surfaces
as exactly one Diagnosis and the run still completes, in particular for
errors raised while issuing the introspection probe (Probe C).  The code
awaits the introspection `got.post` outside every try/catch, so a transport
failure raised there escapes the engine: on a run whose Probes A and B are
clean and whose Probe C raises ECONNREFUSED, the run aborts with the raw
error and records no Diagnosis at all. -/
theorem c1_probe_c_error_escapes :
    runDiagnose cfgC1 envC1 =
      RunOutcome.aborted (some "ECONNREFUSED") initialReport
        [.optionsProbe, .pingProbe, .introspectionProbe] := by
  decide

/-- C3 counterexample: the header value `POSTS` does not contain `POST` as
a comma-separated token, yet `checkPreflight` accepts it (returns none),
refuting the claim that a CORS Diagnosis is returned whenever the value
does not contain POST as a token. -/
theorem c3_counterexample :
    containsPOSTToken "POSTS" = false ∧
    getHeader respPostsOnly.headers "access-control-allow-methods" = some "POSTS" ∧
    checkPreflight respPostsOnly = none := by
  refine ⟨by decide, by decide, by decide⟩

/-- C3 (amended): `checkPreflight` returns none exactly when the header
`access-control-allow-methods` is present and its value contains `POST` as
a substring (not as a token); in every other case it returns a CORS
Diagnosis. -/
theorem c3_preflight_substring (r : HttpResponse) :
    (checkPreflight r = none ↔
      ∃ v, getHeader r.headers "access-control-allow-methods" = some v ∧
        strIncludes v "POST" = true) ∧
    (∀ d, checkPreflight r = some d → d.category = Category.CORS) := by
  constructor
  · unfold checkPreflight
    cases hv : getHeader r.headers "access-control-allow-methods" with
    | none => simp [corsMethodsOk]
    | some v =>
      by_cases he : v = ""
      · subst he
        simp [corsMethodsOk]
        decide
      · simp [corsMethodsOk, he]
  · intro d hd
    rw [checkPreflight_some r d hd]

/-- C4 counterexample: with request origin the empty string and the header
`access-control-allow-origin` present with the (equal) empty value, the
claim says `checkActualResponse` returns none, but the code treats the
empty header value as missing (JS falsiness) and returns a CORS
Diagnosis. -/
theorem c4_counterexample :
    getHeader respEmptyAllowOrigin.headers "access-control-allow-origin" = some "" ∧
    ("" : String) = "" ∧
    checkActualResponse respEmptyAllowOrigin "" =
      some ⟨corsActualMsg, Category.CORS⟩ := by
  refine ⟨by decide, rfl, by decide⟩

/-- C4 (amended): `checkActualResponse` returns none exactly when the
header `access-control-allow-origin` is present with a non-empty value
equal to `*` or to the request origin; in every other case it returns a
CORS Diagnosis whose message includes both remediation options (the
exact-origin echo line plus `access-control-allow-credentials: true`, and
the wildcard line). -/
theorem c4_actual_origin_check (r : HttpResponse) (origin : String) :
    (checkActualResponse r origin = none ↔
      ∃ v, getHeader r.headers "access-control-allow-origin" = some v ∧
        v ≠ "" ∧ (v = "*" ∨ v = origin)) ∧
    (∀ d, checkActualResponse r origin = some d →
      d.category = Category.CORS ∧
      strIncludes d.message corsOriginEchoLine = true ∧
      strIncludes d.message corsCredentialsLine = true ∧
      strIncludes d.message corsWildcardLine = true) := by
  constructor
  · unfold checkActualResponse
    cases hv : getHeader r.headers "access-control-allow-origin" with
    | none => simp [corsOriginOk]
    | some v =>
      by_cases he : v = ""
      · subst he
        simp [corsOriginOk]
      · simp [corsOriginOk, he, or_iff_not_imp_left]
  · intro d hd
    rw [checkActualResponse_some r origin d hd]
    refine ⟨rfl, by decide, by decide, by decide⟩

/-- C8: a probe failure with code EPROTO (protocol mismatch) is classified
as a TRANSPORT Diagnosis carrying the same guidance text as the
name-resolution (ENOTFOUND) and connection-refused (ECONNREFUSED)
failures, not as an UNKNOWN Diagnosis. -/
theorem c8_eproto_transport (st : ReportState) :
    classifyCatch (some "EPROTO") st =
      identifyProblem ⟨eprotoMsg, Category.TRANSPORT⟩ st ∧
    Category.TRANSPORT ≠ Category.UNKNOWN ∧
    strIncludes eprotoMsg transportGuidance = true ∧
    strIncludes enotfoundMsg transportGuidance = true ∧
    strIncludes econnrefusedMsg transportGuidance = true := by
  refine ⟨rfl, by decide, by decide, by decide, by decide⟩

/-- C2: on an HTTP run whose OPTIONS probe returns status 404, the report
flags a problem and contains a NOT_FOUND Diagnosis and the introspection
probe (Probe C) is never issued; in general Probe C runs exactly when
Probes A and B (with their shared catch) produced no diagnosis. -/
theorem c2_notfound_skips_introspection (cfg : Config) (env : Env)
    (h : isWebSocketUrl cfg.endpoint = false) :
    (ProbeEvent.introspectionProbe ∈ (runDiagnose cfg env).trace ↔
      (httpPhase env cfg.origin).1.diagnoses = []) ∧
    (∀ rA, env.optionsOutcome = .success rA → rA.statusCode = 404 →
      (runDiagnose cfg env).report.hasProblem = true ∧
      (∃ d ∈ (runDiagnose cfg env).report.diagnoses,
        d.category = Category.NOT_FOUND) ∧
      ProbeEvent.introspectionProbe ∉ (runDiagnose cfg env).trace) := by
  rcases hp : httpPhase env cfg.origin with ⟨st, tr⟩
  have hInv : ProblemInv st := by
    have h0 := httpPhase_problemInv env cfg.origin
    rw [hp] at h0
    exact h0
  have htr := httpPhase_trace env cfg.origin
  rw [hp] at htr
  have hnoI : ProbeEvent.introspectionProbe ∉ tr := by
    rcases htr with h1 | h1 <;> simp only [Prod.snd] at h1 <;> simp [h1]
  constructor
  · rcases hSt : st.hasProblem with _ | _
    · have hnil : st.diagnoses = [] := by
        rw [ProblemInv, hSt] at hInv
        cases hh : st.diagnoses.isEmpty
        · rw [hh] at hInv
          simp at hInv
        · simpa [List.isEmpty_iff] using hh
      rcases hI : env.introspectionOutcome with r | c
      · rw [runDiagnose_http_quiet_success cfg env st tr r h hp hSt hI]
        simp [RunOutcome.trace, hnil]
      · rw [runDiagnose_http_quiet_raise cfg env st tr c h hp hSt hI]
        simp [RunOutcome.trace, hnil]
    · rw [runDiagnose_http_problem cfg env st tr h hp hSt]
      have hne : st.diagnoses ≠ [] := by
        rw [ProblemInv, hSt] at hInv
        intro hnil
        rw [hnil] at hInv
        simp at hInv
      simp [RunOutcome.trace, hnoI, hne]
  · intro rA hA h404
    have h404s := optionsPhase_404 rA initialReport h404
    have hext : Extends (optionsPhase rA initialReport) st := by
      rcases hB : env.pingOutcome with rB | c
      · have heq := httpPhase_eq_ok env cfg.origin rA rB hA hB
        rw [hp] at heq
        injection heq with h1 h2
        rw [h1]
        exact pingPhase_extends rB cfg.origin (optionsPhase rA initialReport)
      · have heq := httpPhase_eq_raiseB env cfg.origin rA c hA hB
        rw [hp] at heq
        injection heq with h1 h2
        rw [h1]
        exact classifyCatch_extends c (optionsPhase rA initialReport)
    have hstP : st.hasProblem = true := hext.2.1 h404s.1
    rw [runDiagnose_http_problem cfg env st tr h hp hstP]
    obtain ⟨d, hd, hc⟩ := h404s.2
    exact ⟨hstP, ⟨d, extends_mem hext hd, hc⟩, hnoI⟩

/-- C2 witness: a concrete HTTP run whose OPTIONS probe returns 404. -/
theorem c2_witness :
    isWebSocketUrl cfgHttp.endpoint = false ∧
    (runDiagnose cfgHttp envC2w).report.hasProblem = true ∧
    (∃ d ∈ (runDiagnose cfgHttp envC2w).report.diagnoses,
      d.category = Category.NOT_FOUND) ∧
    ProbeEvent.introspectionProbe ∉ (runDiagnose cfgHttp envC2w).trace :=
  ⟨by decide,
   (c2_notfound_skips_introspection cfgHttp envC2w (by decide)).2 ⟨404, [], ""⟩ rfl rfl⟩

/-- C6: on a WebSocket endpoint the run issues exactly the WebSocket probe
and no HTTP probe; a clean open-then-close leaves the report empty, and a
connection-refused connect failure yields exactly one TRANSPORT
Diagnosis. -/
theorem c6_websocket_single_probe (cfg : Config) (env : Env)
    (h : isWebSocketUrl cfg.endpoint = true) :
    (runDiagnose cfg env).trace = [ProbeEvent.wsProbe] ∧
    ProbeEvent.optionsProbe ∉ (runDiagnose cfg env).trace ∧
    ProbeEvent.pingProbe ∉ (runDiagnose cfg env).trace ∧
    ProbeEvent.introspectionProbe ∉ (runDiagnose cfg env).trace ∧
    (env.wsOutcome = .closed → (runDiagnose cfg env).report = initialReport) ∧
    (env.wsOutcome = .connectFailed (some "ECONNREFUSED") →
      (runDiagnose cfg env).report.diagnoses =
        [⟨econnrefusedMsg, Category.TRANSPORT⟩]) := by
  have htr : (runDiagnose cfg env).trace = [ProbeEvent.wsProbe] := by
    rcases hw : env.wsOutcome with _ | c | c
    · rw [runDiagnose_ws_ok cfg env h hw]
      rfl
    · rw [runDiagnose_ws_err cfg env (patchWsCode c) h (by rw [hw]; rfl)]
      rfl
    · rw [runDiagnose_ws_err cfg env c h (by rw [hw]; rfl)]
      rfl
  refine ⟨htr, by simp [htr], by simp [htr], by simp [htr], ?_, ?_⟩
  · intro hw
    rw [runDiagnose_ws_ok cfg env h hw]
    rfl
  · intro hw
    rw [runDiagnose_ws_err cfg env (patchWsCode (some "ECONNREFUSED")) h
      (by rw [hw]; rfl)]
    rfl

/-- C6 witness: a concrete refused WebSocket run. -/
theorem c6_witness :
    isWebSocketUrl cfgWs.endpoint = true ∧
    (runDiagnose cfgWs envC6w).trace = [ProbeEvent.wsProbe] ∧
    (runDiagnose cfgWs envC6w).report.diagnoses =
      [⟨econnrefusedMsg, Category.TRANSPORT⟩] :=
  ⟨by decide, (c6_websocket_single_probe cfgWs envC6w (by decide)).1,
   (c6_websocket_single_probe cfgWs envC6w (by decide)).2.2.2.2.2 rfl⟩

/-- C9: a WebSocket connect failure whose error carries no (falsy) code is
patched to ENOTFOUND, so the run reports the name-resolution TRANSPORT
Diagnosis rather than the UNKNOWN one, regardless of the actual cause. -/
theorem c9_ws_missing_code (cfg : Config) (env : Env) (c : Option String)
    (h : isWebSocketUrl cfg.endpoint = true)
    (hw : env.wsOutcome = .connectFailed c) (hc : truthy c = false) :
    (runDiagnose cfg env).report.diagnoses =
      [⟨enotfoundMsg, Category.TRANSPORT⟩] ∧
    strIncludes enotfoundMsg "Could not resolve (ENOTFOUND)" = true := by
  have hpatch : patchWsCode c = some "ENOTFOUND" := by
    unfold patchWsCode
    rw [hc]
    rfl
  constructor
  · rw [runDiagnose_ws_err cfg env (patchWsCode c) h (by rw [hw]; rfl), hpatch]
    rfl
  · decide

/-- C9 witness: a concrete WebSocket connect failure with no error code. -/
theorem c9_witness :
    isWebSocketUrl cfgWs.endpoint = true ∧
    envC9w.wsOutcome = WsOutcome.connectFailed none ∧
    truthy none = false ∧
    (runDiagnose cfgWs envC9w).report.diagnoses =
      [⟨enotfoundMsg, Category.TRANSPORT⟩] :=
  ⟨by decide, rfl, rfl,
   (c9_ws_missing_code cfgWs envC9w none (by decide) rfl rfl).1⟩

/-- C10: when Probe A (OPTIONS) raises a transport failure, the shared
try/catch means Probe B is never issued: the run records only the single
TRANSPORT or UNKNOWN Diagnosis and no CORS finding; a mere status-code
finding (401/404) on Probe A does not skip Probe B. -/
theorem c10_shared_catch_skips_ping (cfg : Config) (env : Env)
    (h : isWebSocketUrl cfg.endpoint = false) :
    (∀ c, env.optionsOutcome = .raise c →
      (runDiagnose cfg env).trace = [ProbeEvent.optionsProbe] ∧
      ProbeEvent.pingProbe ∉ (runDiagnose cfg env).trace ∧
      (∃ d, (runDiagnose cfg env).report.diagnoses = [d] ∧
        (d.category = Category.TRANSPORT ∨ d.category = Category.UNKNOWN)) ∧
      (runDiagnose cfg env).report.hasCorsProblem = false) ∧
    (∀ rA, env.optionsOutcome = .success rA →
      (rA.statusCode = 401 ∨ rA.statusCode = 404) →
      ProbeEvent.pingProbe ∈ (runDiagnose cfg env).trace) := by
  constructor
  · intro c hA
    have hp := httpPhase_eq_raiseA env cfg.origin c hA
    have hhp := classifyCatch_hasProblem c initialReport
    rw [runDiagnose_http_problem cfg env _ _ h hp hhp]
    obtain ⟨d, heq, hcat⟩ := classifyCatch_shape c initialReport
    refine ⟨rfl, by simp [RunOutcome.trace], ⟨d, ?_, hcat⟩, ?_⟩
    · rw [RunOutcome.report, heq]
      rfl
    · rw [RunOutcome.report, heq]
      rfl
  · intro rA hA hst
    rcases hB : env.pingOutcome with rB | c
    · have hp := httpPhase_eq_ok env cfg.origin rA rB hA hB
      rcases hSt : (pingPhase rB cfg.origin (optionsPhase rA initialReport)).hasProblem
        with _ | _
      · rcases hI : env.introspectionOutcome with r | c
        · rw [runDiagnose_http_quiet_success cfg env _ _ r h hp hSt hI]
          simp [RunOutcome.trace]
        · rw [runDiagnose_http_quiet_raise cfg env _ _ c h hp hSt hI]
          simp [RunOutcome.trace]
      · rw [runDiagnose_http_problem cfg env _ _ h hp hSt]
        simp [RunOutcome.trace]
    · have hp := httpPhase_eq_raiseB env cfg.origin rA c hA hB
      have hhp := classifyCatch_hasProblem c (optionsPhase rA initialReport)
      rw [runDiagnose_http_problem cfg env _ _ h hp hhp]
      simp [RunOutcome.trace]

/-- C10 witness: a concrete HTTP run whose OPTIONS probe raises
ENOTFOUND. -/
theorem c10_witness :
    isWebSocketUrl cfgHttp.endpoint = false ∧
    envC10w.optionsOutcome = HttpOutcome.raise (some "ENOTFOUND") ∧
    (runDiagnose cfgHttp envC10w).trace = [ProbeEvent.optionsProbe] ∧
    ProbeEvent.pingProbe ∉ (runDiagnose cfgHttp envC10w).trace :=
  ⟨by decide, rfl,
   ((c10_shared_catch_skips_ping cfgHttp envC10w (by decide)).1
     (some "ENOTFOUND") rfl).1,
   ((c10_shared_catch_skips_ping cfgHttp envC10w (by decide)).1
     (some "ENOTFOUND") rfl).2.1⟩

/-- C7 counterexample: the body `5` parses successfully (to the JSON
number 5) and has no top-level `data` field, yet the code does not emit
the introspection-may-be-disabled Diagnosis the claim requires: the `in`
operator throws on a primitive, and the catch emits the could-not-parse
Diagnosis instead. -/
theorem c7_counterexample :
    parseNumFive "5" = some (Json.jnum 5) ∧
    introspectionCheck parseNumFive okBuild "5" initialReport =
      ⟨[⟨parseErrMsg "5", Category.SCHEMA⟩], true, false⟩ ∧
    parseErrMsg "5" ≠ disabledMsg "5" := by
  refine ⟨rfl, rfl, by decide⟩

/-- C7 (amended): for a body parsing to a document on which the JS `in`
field tests evaluate without throwing: a missing `data` field, or a `data`
value lacking `__schema`, yields the SCHEMA Diagnosis stating
introspection may be disabled and quoting the raw body; a well-shaped
document whose schema builds and validates with no errors yields no
Diagnosis.  Bodies parsing to primitives (or with primitive `data`
values) instead take the could-not-parse path shown in the
counterexample. -/
theorem c7_schema_validator (parse : String → Option Json)
    (bv : Json → Except String (List String)) (body : String) (st : ReportState)
    (doc : Json) (hp : parse body = some doc) :
    (hasProp "data" doc = .ok false →
      introspectionCheck parse bv body st =
        identifyProblem ⟨disabledMsg body, Category.SCHEMA⟩ st) ∧
    (hasProp "data" doc = .ok true →
      hasProp "__schema" (getProp "data" doc) = .ok false →
      introspectionCheck parse bv body st =
        identifyProblem ⟨disabledMsg body, Category.SCHEMA⟩ st) ∧
    (hasProp "data" doc = .ok true →
      hasProp "__schema" (getProp "data" doc) = .ok true →
      bv (getProp "data" doc) = .ok [] →
      introspectionCheck parse bv body st = st) := by
  refine ⟨?_, ?_, ?_⟩
  · intro h1
    unfold introspectionCheck
    simp only [hp, h1]
  · intro h1 h2
    unfold introspectionCheck
    simp only [hp, h1, h2]
  · intro h1 h2 h3
    unfold introspectionCheck
    simp [hp, h1, h2, h3]

/-- C7 witness: an errors-only response body, parsing to an object with no
`data` field, produces the disabled-introspection SCHEMA Diagnosis. -/
theorem c7_witness :
    parseErrorsOnly errorsOnlyBody = some errorsOnlyDoc ∧
    hasProp "data" errorsOnlyDoc = Except.ok false ∧
    introspectionCheck parseErrorsOnly okBuild errorsOnlyBody initialReport =
      identifyProblem ⟨disabledMsg errorsOnlyBody, Category.SCHEMA⟩ initialReport :=
  ⟨rfl, rfl,
   (c7_schema_validator parseErrorsOnly okBuild errorsOnlyBody initialReport
     errorsOnlyDoc rfl).1 rfl⟩

/-- C5: `hasCorsProblem` is true exactly when some recorded Diagnosis has
category CORS, and the report is append-only: every snapshot the run
passes through extends the previous one (diagnoses only appended, flags
never reset), starting from the empty report and ending in the run
report. -/
theorem c5_cors_flag_and_append_only (cfg : Config) (env : Env) :
    ((runDiagnose cfg env).report.hasCorsProblem = true ↔
      ∃ d ∈ (runDiagnose cfg env).report.diagnoses,
        d.category = Category.CORS) ∧
    List.Chain' Extends (runSnapshots cfg env) ∧
    (runSnapshots cfg env).head? = some initialReport ∧
    (runSnapshots cfg env).getLast? = some (runDiagnose cfg env).report := by
  refine ⟨?_, ?_⟩
  · have hc := run_corsInv cfg env
    rw [CorsInv] at hc
    rw [hc]
    simp [List.any_eq_true]
  · by_cases h : isWebSocketUrl cfg.endpoint = true
    · rcases hw : env.wsOutcome with _ | c | c
      · rw [runDiagnose_ws_ok cfg env h hw]
        simp [runSnapshots, h, hw, wsResult, RunOutcome.report]
      · rw [runDiagnose_ws_err cfg env (patchWsCode c) h (by rw [hw]; rfl)]
        simp only [runSnapshots, h, hw, wsResult, if_true, RunOutcome.report]
        refine ⟨?_, rfl, rfl⟩
        simp [List.chain'_pair]
        exact classifyCatch_extends _ _
      · rw [runDiagnose_ws_err cfg env c h (by rw [hw]; rfl)]
        simp only [runSnapshots, h, hw, wsResult, if_true, RunOutcome.report]
        refine ⟨?_, rfl, rfl⟩
        simp [List.chain'_pair]
        exact classifyCatch_extends _ _
    · rw [Bool.not_eq_true] at h
      rcases hA : env.optionsOutcome with rA | c
      · rcases hB : env.pingOutcome with rB | c
        · have hp := httpPhase_eq_ok env cfg.origin rA rB hA hB
          rcases hSt : (pingPhase rB cfg.origin (optionsPhase rA initialReport)).hasProblem
            with _ | _
          · rcases hI : env.introspectionOutcome with r | c
            · rw [runDiagnose_http_quiet_success cfg env _ _ r h hp hSt hI]
              simp only [runSnapshots, h, hA, hB, hI, hSt, RunOutcome.report,
                Bool.false_eq_true, if_false]
              refine ⟨?_, rfl, rfl⟩
              simp [List.chain'_cons, List.chain'_pair]
              exact ⟨optionsPhase_extends _ _, pingPhase_extends _ _ _,
                introspectionCheck_extends _ _ _ _⟩
            · rw [runDiagnose_http_quiet_raise cfg env _ _ c h hp hSt hI]
              simp only [runSnapshots, h, hA, hB, hI, hSt, RunOutcome.report,
                Bool.false_eq_true, if_false]
              refine ⟨?_, rfl, rfl⟩
              simp [List.chain'_cons, List.chain'_pair]
              exact ⟨optionsPhase_extends _ _, pingPhase_extends _ _ _⟩
          · rw [runDiagnose_http_problem cfg env _ _ h hp hSt]
            simp only [runSnapshots, h, hA, hB, hSt, RunOutcome.report, if_true]
            refine ⟨?_, rfl, rfl⟩
            simp [List.chain'_cons, List.chain'_pair]
            exact ⟨optionsPhase_extends _ _, pingPhase_extends _ _ _⟩
        · have hp := httpPhase_eq_raiseB env cfg.origin rA c hA hB
          have hhp := classifyCatch_hasProblem c (optionsPhase rA initialReport)
          rw [runDiagnose_http_problem cfg env _ _ h hp hhp]
          simp only [runSnapshots, h, hA, hB, RunOutcome.report]
          refine ⟨?_, rfl, rfl⟩
          simp [List.chain'_cons, List.chain'_pair]
          exact ⟨optionsPhase_extends _ _, classifyCatch_extends _ _⟩
      · have hp := httpPhase_eq_raiseA env cfg.origin c hA
        have hhp := classifyCatch_hasProblem c initialReport
        rw [runDiagnose_http_problem cfg env _ _ h hp hhp]
        simp only [runSnapshots, h, hA, RunOutcome.report]
        refine ⟨?_, rfl, rfl⟩
        simp [List.chain'_pair]
        exact classifyCatch_extends _ _

/-- C3 witness: a response with no headers at all is rejected by the
preflight check with a CORS Diagnosis. -/
theorem c3_witness :
    checkPreflight respNoHeaders = some ⟨preflightMsg, Category.CORS⟩ ∧
    (⟨preflightMsg, Category.CORS⟩ : Diagnosis).category = Category.CORS :=
  ⟨rfl, (c3_preflight_substring respNoHeaders).2 ⟨preflightMsg, Category.CORS⟩ rfl⟩

/-- C4 witness: a response with no headers at all is rejected by the
actual-response check with a CORS Diagnosis whose message carries both
remediation options. -/
theorem c4_witness :
    checkActualResponse respNoHeaders defaultOrigin =
      some ⟨corsActualMsg, Category.CORS⟩ ∧
    (⟨corsActualMsg, Category.CORS⟩ : Diagnosis).category = Category.CORS ∧
    strIncludes corsActualMsg corsOriginEchoLine = true ∧
    strIncludes corsActualMsg corsCredentialsLine = true ∧
    strIncludes corsActualMsg corsWildcardLine = true :=
  ⟨rfl, (c4_actual_origin_check respNoHeaders defaultOrigin).2
    ⟨corsActualMsg, Category.CORS⟩ rfl⟩

end DiagnoseEndpoint
